import Mathlib

/-!
# Readiness gate for dependent services (`cmd/init-probe/healthy/depends_health.go`)

A shallow embedding of `DependServiceHealthController`: its constructor, the
polling loop `Check`, the three checks, and the evaluation of an endpoint
discovery response in `checkEDS`.

Conventions of the embedding:

* a Go function with effects is a state-passing function `σ → Bool × σ`;
* the discovery service is a field of the state (`World.fetch`), which gives the
  outcome of the k-th `FetchEndpoints` call for the request that was sent;
* `os.Getenv` is a total function `String → String` (the empty string for an
  unset variable, as in Go);
* every call of an entry of `checkFunc` is recorded, by name, in the state
  (`World.invoked`), so that the order of the calls can be stated;
* the unbounded `for` loop of `Check` takes a fuel argument, one unit per cycle;
* log calls have no effect on any result and are left out.
-/

namespace Healthy

/-! ## Discovery messages -/

/-- Modelled from the spec: the health-check marker of an endpoint
(`Endpoint.HealthCheckConfig`); the message type is declared in the protocol
library, outside the source file. Only its presence is ever inspected. -/
structure HealthCheckConfig where
  portValue : Nat
  deriving DecidableEq, Repr

/-- Modelled from the spec: an upstream endpoint, with its address and its
optional health-check marker (a nullable pointer in the protocol library). -/
structure Endpoint where
  address : String
  healthCheckConfig : Option HealthCheckConfig
  deriving DecidableEq, Repr

/-- Modelled from the spec: the endpoint-identifier union of a weighted
endpoint. `absent` is the nil interface value, `endpoint` is the
`LbEndpoint_Endpoint` variant carrying a nullable endpoint pointer, `other` is
any other identifier kind. A decoded message never holds a nil wrapper pointer
inside the interface, so that value has no constructor. -/
inductive HostIdentifier where
  | absent
  | endpoint (e : Option Endpoint)
  | other (name : String)
  deriving DecidableEq, Repr

/-- Modelled from the spec: a weighted endpoint of an endpoint group. -/
structure LbEndpoint where
  hostIdentifier : HostIdentifier
  deriving DecidableEq, Repr

/-- Modelled from the spec: an endpoint group (locality) with its ordered
endpoints. -/
structure LocalityLbEndpoints where
  lbEndpoints : List LbEndpoint
  deriving DecidableEq, Repr

/-- Modelled from the spec: a cluster name plus an ordered list of endpoint
groups. -/
structure ClusterLoadAssignment where
  clusterName : String
  endpoints : List LocalityLbEndpoints
  deriving DecidableEq, Repr

/-- Modelled from the spec: an opaque resource of a discovery response
(type URL and serialized bytes). -/
structure Any where
  typeUrl : String
  value : List Nat
  deriving DecidableEq, Repr

/-- The requesting node of a discovery request (`core.Node`, the two fields
that `checkEDS` fills in). -/
structure Node where
  cluster : String
  id : String
  deriving DecidableEq, Repr

/-- The request sent by `checkEDS`. -/
structure DiscoveryRequest where
  node : Node
  deriving DecidableEq, Repr

/-- The response of the discovery service: a list of opaque resources. -/
structure DiscoveryResponse where
  resources : List Any
  deriving DecidableEq, Repr

/-- The decoder `envoyv2.ParseLocalityLbEndpointsResource`, which lives in
another package of the repository; it is a parameter of everything below. -/
abbrev ResourceParser := List Any → List ClusterLoadAssignment

/-! ## The Go map `map[string]bool` -/

/-- A Go `map[string]bool`: a function from keys to optional values. -/
def ReadyMap := String → Option Bool

/-- The map `make(map[string]bool, n)`: no key. -/
def ReadyMap.empty : ReadyMap := fun _ => none

/-- The assignment `m[k] = v`. -/
def ReadyMap.set (m : ReadyMap) (k : String) (v : Bool) : ReadyMap :=
  fun k' => if k' = k then some v else m k'

/-- The second result of `_, ok := m[k]`. -/
def ReadyMap.has (m : ReadyMap) (k : String) : Bool :=
  (m k).isSome

/-! ## The controller and its environment -/

/-- The names of the entries of `checkFunc` (method values bound to the
controller). -/
inductive CheckName where
  | checkListener
  | checkClusters
  | checkEDS
  deriving DecidableEq, Repr

/-- The handle returned by `grpc.Dial`, wrapped by the endpoint client. -/
structure ClientConn where
  target : String
  deriving DecidableEq, Repr

/-- The fields of `DependServiceHealthController` that are ever written.
`listeners`, `clusters`, `sdsHost`, `envoyDiscoverVersion` and
`dependServiceCount` keep their zero value and are never read. `interval` is
in seconds. -/
structure DependServiceHealthController where
  interval : Nat
  checkFunc : List CheckName
  endpointClient : Option ClientConn
  clusterID : String
  dependServiceClusterNames : List String
  deriving DecidableEq, Repr

/-- The part of the outside world the controller talks to: `fetch k req` is the
outcome of the k-th `FetchEndpoints` call when it carries request `req`
(an error message or a response), `calls` counts the calls made so far, and
`invoked` is the record of the entries of `checkFunc` called so far, oldest
first. -/
structure World where
  fetch : Nat → DiscoveryRequest → Except String DiscoveryResponse
  calls : Nat
  invoked : List CheckName

/-- The world in which one more call of a check is on record. -/
def World.record (w : World) (name : CheckName) : World :=
  { w with invoked := w.invoked ++ [name] }

/-! ## `strings.Split` with a one-character separator -/

/-- Splitting a character sequence at every occurrence of `sep`: one more piece
than there are separators, so the empty sequence gives one empty piece. -/
def splitChars (sep : Char) : List Char → List (List Char)
  | [] => [[]]
  | c :: cs =>
    if c = sep then [] :: splitChars sep cs
    else
      match splitChars sep cs with
      | [] => [[c]]
      | piece :: pieces => (c :: piece) :: pieces

/-- The call `strings.Split(s, sep)` of the Go standard library for a
separator of one character. -/
def Split (s : String) (sep : Char) : List String :=
  (splitChars sep s.data).map String.mk

/-! ## The constructor -/

/-- The function `NewDependServiceHealthController`. `getenv` is `os.Getenv`
and `dial` is `grpc.Dial` with the insecure option. -/
def NewDependServiceHealthController (getenv : String → String)
    (dial : String → Except String ClientConn) :
    Except String DependServiceHealthController :=
  let clusterID := getenv "ENVOY_NODE_ID"
  let clusterID :=
    if clusterID = "" then
      getenv "TENANT_ID" ++ "_" ++ getenv "PLUGIN_ID" ++ "_" ++ getenv "SERVICE_NAME"
    else clusterID
  let dsc : DependServiceHealthController :=
    { interval := 5, checkFunc := [], endpointClient := none, clusterID := clusterID,
      dependServiceClusterNames := [] }
  let dsc := { dsc with checkFunc := dsc.checkFunc ++ [CheckName.checkListener] }
  let dsc := { dsc with checkFunc := dsc.checkFunc ++ [CheckName.checkClusters] }
  let dsc := { dsc with checkFunc := dsc.checkFunc ++ [CheckName.checkEDS] }
  let xDSHost := getenv "XDS_HOST_IP"
  let xDSHost := if xDSHost = "" then "172.30.42.1" else xDSHost
  let xDSHostPort := getenv "XDS_HOST_PORT"
  let xDSHostPort := if xDSHostPort = "" then "6101" else xDSHostPort
  match dial (xDSHost ++ ":" ++ xDSHostPort) with
  | .error err => .error err
  | .ok cli =>
    let dsc := { dsc with endpointClient := some cli }
    let dsc := { dsc with
      dependServiceClusterNames := Split (getenv "DEPEND_SERVICE_CLUSTER_NAMES") ',' }
    .ok dsc

/-! ## The checks -/

/-- The method `checkListener`. -/
def checkListener (_d : DependServiceHealthController) (w : World) : Bool × World :=
  (true, w)

/-- The method `checkClusters`. -/
def checkClusters (_d : DependServiceHealthController) (w : World) : Bool × World :=
  (true, w)

/-- The closure `ready` inside `checkEDS`: the readiness value of one
record. -/
def ready (cla : ClusterLoadAssignment) : Bool :=
  match cla.endpoints with
  | [] => false
  | group :: _ =>
    match group.lbEndpoints with
    | [] => false
    | first :: _ =>
      match first.hostIdentifier with
      | .endpoint (some host) => host.healthCheckConfig.isSome
      | _ => false

/-- The first loop of `checkEDS`: the map `readyClusters`, filled record by
record in the order of the decoded list. -/
def readyClusters (clusterLoadAssignments : List ClusterLoadAssignment) : ReadyMap :=
  clusterLoadAssignments.foldl (fun m cla => m.set cla.clusterName (ready cla))
    ReadyMap.empty

/-- The second loop of `checkEDS`: false at the first dependency name that is
not a key of the map, true when the list is exhausted. -/
def allPresent (m : ReadyMap) : List String → Bool
  | [] => true
  | cn :: rest => if m.has cn then allPresent m rest else false

/-- The request built by `checkEDS`. -/
def edsRequest (d : DependServiceHealthController) : DiscoveryRequest :=
  { node := { cluster := d.clusterID, id := d.clusterID } }

/-- The method `checkEDS`: one `FetchEndpoints` call, then the evaluation of
the response. -/
def checkEDS (parse : ResourceParser) (d : DependServiceHealthController) (w : World) :
    Bool × World :=
  let w' : World := { w with calls := w.calls + 1 }
  match w.fetch w.calls (edsRequest d) with
  | .error _ => (false, w')
  | .ok res => (allPresent (readyClusters (parse res.resources)) d.dependServiceClusterNames, w')

/-- The call `check()` of an entry of `checkFunc`: the call goes on record,
then the method bound to the entry runs. -/
def CheckName.run (parse : ResourceParser) (d : DependServiceHealthController) :
    CheckName → World → Bool × World
  | .checkListener, w => Healthy.checkListener d (w.record .checkListener)
  | .checkClusters, w => Healthy.checkClusters d (w.record .checkClusters)
  | .checkEDS, w => Healthy.checkEDS parse d (w.record .checkEDS)

/-! ## The polling loop -/

/-- The closure `check` inside `Check`: the checks in list order, stopping at
the first one that returns false. -/
def check {σ : Type} : List (σ → Bool × σ) → σ → Bool × σ
  | [], s => (true, s)
  | f :: rest, s =>
    match f s with
    | (false, s') => (false, s')
    | (true, s') => check rest s'

/-- What is known when `Check` returns: the number of cycles it ran, the
number of ticks it waited for, and the state it left. -/
structure Returned (σ : Type) where
  cycles : Nat
  ticks : Nat
  state : σ

/-- The `for` loop of `Check` over a cycle function: `cycles` and `ticks` count
the cycles run and the ticks received so far. One unit of fuel per cycle;
`none` means the loop is still running when the fuel is used up. -/
def Check.loop {σ : Type} (cycle : σ → Bool × σ) : Nat → Nat → Nat → σ → Option (Returned σ)
  | 0, _, _, _ => none
  | fuel + 1, cycles, ticks, s =>
    match cycle s with
    | (true, s') => some { cycles := cycles + 1, ticks := ticks, state := s' }
    | (false, s') => Check.loop cycle fuel (cycles + 1) (ticks + 1) s'

/-- The method `Check` of the controller. -/
def Check (parse : ResourceParser) (d : DependServiceHealthController) (fuel : Nat)
    (w : World) : Option (Returned World) :=
  Check.loop (check (d.checkFunc.map (CheckName.run parse d))) fuel 0 0 w

/-! ## Observing a run of the loop -/

/-- A check wrapped so that every invocation appends its position in the list
and the value it returned to a log carried next to the state. -/
def logged {σ : Type} (i : Nat) (f : σ → Bool × σ) :
    σ × List (Nat × Bool) → Bool × (σ × List (Nat × Bool)) :=
  fun sl => ((f sl.1).1, ((f sl.1).2, sl.2 ++ [(i, (f sl.1).1)]))

/-- The checks of a list, each wrapped by `logged` with its position, counted
from `i`. -/
def loggedFrom {σ : Type} : Nat → List (σ → Bool × σ) →
    List (σ × List (Nat × Bool) → Bool × (σ × List (Nat × Bool)))
  | _, [] => []
  | i, f :: rest => logged i f :: loggedFrom (i + 1) rest

/-- The state in which cycle `i` starts, when the loop starts in state `s` and
every earlier cycle is followed by another one. -/
def cycleState {σ : Type} (cycle : σ → Bool × σ) : Nat → σ → σ
  | 0, s => s
  | i + 1, s => cycleState cycle i (cycle s).2

/-- The result of cycle `i`. -/
def cycleOutcome {σ : Type} (cycle : σ → Bool × σ) (s : σ) (i : Nat) : Bool :=
  (cycle (cycleState cycle i s)).1

/-! ## Concrete inputs used to evaluate the definitions -/

/-- An environment that sets the three identity fields and nothing else. -/
def identityEnviron : String → String :=
  fun name =>
    if name = "TENANT_ID" then "t1"
    else if name = "PLUGIN_ID" then "p1"
    else if name = "SERVICE_NAME" then "web"
    else ""

/-- An environment that sets the override on top of the identity fields. -/
def overrideEnviron : String → String :=
  fun name => if name = "ENVOY_NODE_ID" then "node-7" else identityEnviron name

/-- A decoder that yields the given records whatever the resources are. -/
def fixedRecords (clas : List ClusterLoadAssignment) : ResourceParser :=
  fun _ => clas

/-- A discovery service that answers every call with the same response. -/
def alwaysResponds (res : DiscoveryResponse) : World :=
  { fetch := fun _ _ => .ok res, calls := 0, invoked := [] }

/-- A discovery service whose first `n` calls fail and whose later calls
answer with `res`. -/
def failsThenResponds (n : Nat) (res : DiscoveryResponse) : World :=
  { fetch := fun k _ => if k < n then .error "unavailable" else .ok res, calls := 0,
    invoked := [] }

/-- An environment in which no variable is set. -/
def emptyEnviron : String → String :=
  fun _ => ""

/-- A dialer that always succeeds. -/
def dialOk : String → Except String ClientConn :=
  fun target => .ok { target := target }

/-- A controller with the check list of the constructor, for a given cluster
identity and dependency list. -/
def controllerFor (clusterID : String) (names : List String) :
    DependServiceHealthController :=
  { interval := 5,
    checkFunc := [CheckName.checkListener, CheckName.checkClusters, CheckName.checkEDS],
    endpointClient := some { target := "172.30.42.1:6101" },
    clusterID := clusterID,
    dependServiceClusterNames := names }

/-- An endpoint of the `Endpoint` variant with the given optional marker. -/
def lbEndpointWith (marker : Option HealthCheckConfig) : LbEndpoint :=
  { hostIdentifier := .endpoint (some { address := "10.0.0.1", healthCheckConfig := marker }) }

/-! ## Lemmas on the map and on the two loops of `checkEDS` -/

theorem ReadyMap.has_set (m : ReadyMap) (k k' : String) (v : Bool) :
    (m.set k v).has k' = (decide (k' = k) || m.has k') := by
  unfold ReadyMap.has ReadyMap.set
  by_cases h : k' = k <;> simp [h]

theorem foldl_set_has (clas : List ClusterLoadAssignment) (m : ReadyMap) (k : String) :
    (clas.foldl (fun m cla => m.set cla.clusterName (ready cla)) m).has k = true ↔
      m.has k = true ∨ ∃ cla ∈ clas, cla.clusterName = k := by
  induction clas generalizing m with
  | nil => simp
  | cons cla rest ih =>
    rw [List.foldl_cons, ih, ReadyMap.has_set]
    simp only [Bool.or_eq_true, decide_eq_true_eq, List.mem_cons, exists_eq_or_imp]
    constructor
    · rintro ((h | h) | h)
      · exact Or.inr (Or.inl h.symm)
      · exact Or.inl h
      · exact Or.inr (Or.inr h)
    · rintro (h | h | h)
      · exact Or.inl (Or.inr h)
      · exact Or.inl (Or.inl h.symm)
      · exact Or.inr h

theorem readyClusters_has (clas : List ClusterLoadAssignment) (k : String) :
    (readyClusters clas).has k = true ↔ ∃ cla ∈ clas, cla.clusterName = k := by
  unfold readyClusters
  rw [foldl_set_has]
  simp [ReadyMap.has, ReadyMap.empty]

theorem allPresent_iff (m : ReadyMap) (names : List String) :
    allPresent m names = true ↔ ∀ cn ∈ names, m.has cn = true := by
  induction names with
  | nil => simp [allPresent]
  | cons cn rest ih =>
    unfold allPresent
    by_cases h : m.has cn = true
    · simp [h, ih]
    · simp [h]

theorem allPresent_congr (m m' : ReadyMap) (names : List String)
    (h : ∀ k, m.has k = m'.has k) : allPresent m names = allPresent m' names := by
  induction names with
  | nil => rfl
  | cons cn rest ih => simp [allPresent, h cn, ih]

theorem checkEDS_ok (parse : ResourceParser) (d : DependServiceHealthController) (w : World)
    (res : DiscoveryResponse) (hres : w.fetch w.calls (edsRequest d) = .ok res) :
    checkEDS parse d w =
      (allPresent (readyClusters (parse res.resources)) d.dependServiceClusterNames,
        { w with calls := w.calls + 1 }) := by
  simp [checkEDS, hres]

theorem check_loggedFrom {σ : Type} (fs : List (σ → Bool × σ)) :
    ∀ (i : Nat) (s : σ) (l : List (Nat × Bool)),
      ∃ k, (check (loggedFrom i fs) (s, l)).2.2 =
              l ++ (List.range' i k).map (fun j => (j, true)) ++
                (if (check fs s).1 = true then [] else [(i + k, false)]) ∧
            (if (check fs s).1 = true then k = fs.length else k < fs.length) ∧
            (check (loggedFrom i fs) (s, l)).1 = (check fs s).1 ∧
            (check (loggedFrom i fs) (s, l)).2.1 = (check fs s).2 := by
  induction fs with
  | nil =>
    intro i s l
    exact ⟨0, by simp [check, loggedFrom]⟩
  | cons f rest ih =>
    intro i s l
    rcases hfs : f s with ⟨b, s'⟩
    cases b with
    | false =>
      refine ⟨0, ?_⟩
      simp [check, loggedFrom, logged, hfs]
    | true =>
      obtain ⟨k, hlog, hk, hres, hst⟩ := ih (i + 1) s' (l ++ [(i, true)])
      refine ⟨k + 1, ?_⟩
      have hstep : check (loggedFrom i (f :: rest)) (s, l) =
          check (loggedFrom (i + 1) rest) (s', l ++ [(i, true)]) := by
        simp [check, loggedFrom, logged, hfs]
      have hplain : check (f :: rest) s = check rest s' := by
        simp [check, hfs]
      rw [hstep, hplain, hlog]
      refine ⟨?_, ?_, hres, hst⟩
      · have : i + (k + 1) = i + 1 + k := by omega
        simp [List.range'_succ, this]
      · split at hk <;> simp_all

theorem Check.loop_first_pass {σ : Type} (cycle : σ → Bool × σ) :
    ∀ (n : Nat) (s : σ) (c t fuel : Nat),
      (∀ i < n, cycleOutcome cycle s i = false) → cycleOutcome cycle s n = true → n < fuel →
      Check.loop cycle fuel c t s =
        some { cycles := c + n + 1, ticks := t + n, state := cycleState cycle (n + 1) s } := by
  intro n
  induction n with
  | zero =>
    intro s c t fuel _ hn hfuel
    obtain ⟨fuel, rfl⟩ : ∃ m, fuel = m + 1 := ⟨fuel - 1, by omega⟩
    rcases hcs : cycle s with ⟨b, s'⟩
    have hb : b = true := by simpa [cycleOutcome, cycleState, hcs] using hn
    subst hb
    simp [Check.loop, cycleState, hcs]
  | succ n ih =>
    intro s c t fuel hbefore hn hfuel
    obtain ⟨fuel, rfl⟩ : ∃ m, fuel = m + 1 := ⟨fuel - 1, by omega⟩
    rcases hcs : cycle s with ⟨b, s'⟩
    have hb : b = false := by
      simpa [cycleOutcome, cycleState, hcs] using hbefore 0 (by omega)
    subst hb
    have hrec := ih s' (c + 1) (t + 1) fuel
      (fun i hi => by
        have := hbefore (i + 1) (by omega)
        simpa [cycleOutcome, cycleState, hcs] using this)
      (by simpa [cycleOutcome, cycleState, hcs] using hn) (by omega)
    simp only [Check.loop, hcs, hrec]
    have e1 : c + 1 + n + 1 = c + (n + 1) + 1 := by omega
    have e2 : t + 1 + n = t + (n + 1) := by omega
    simp [cycleState, hcs, e1, e2]

theorem Check.loop_some {σ : Type} (cycle : σ → Bool × σ) :
    ∀ (fuel : Nat) (s : σ) (c t : Nat) (r : Returned σ),
      Check.loop cycle fuel c t s = some r →
      ∃ n, n < fuel ∧ r.cycles = c + n + 1 ∧ r.ticks = t + n ∧
        cycleOutcome cycle s n = true ∧ (∀ i < n, cycleOutcome cycle s i = false) ∧
        r.state = cycleState cycle (n + 1) s := by
  intro fuel
  induction fuel with
  | zero =>
    intro s c t r h
    simp [Check.loop] at h
  | succ fuel ih =>
    intro s c t r h
    rcases hcs : cycle s with ⟨b, s'⟩
    cases b with
    | true =>
      simp only [Check.loop, hcs, Option.some.injEq] at h
      subst h
      exact ⟨0, by omega, rfl, rfl, by simp [cycleOutcome, cycleState, hcs],
        by intro i hi; omega, by simp [cycleState, hcs]⟩
    | false =>
      simp only [Check.loop, hcs] at h
      obtain ⟨n, hn, hc, ht, hout, hbefore, hst⟩ := ih s' (c + 1) (t + 1) r h
      refine ⟨n + 1, by omega, by omega, by omega, ?_, ?_, ?_⟩
      · simpa [cycleOutcome, cycleState, hcs] using hout
      · intro i hi
        cases i with
        | zero => simp [cycleOutcome, cycleState, hcs]
        | succ i =>
          have := hbefore i (by omega)
          simpa [cycleOutcome, cycleState, hcs] using this
      · simpa [cycleState, hcs] using hst

theorem check_single {σ : Type} (f : σ → Bool × σ) (s : σ) : check [f] s = f s := by
  rcases hfs : f s with ⟨b, s'⟩
  cases b <;> simp [check, hfs]

theorem checkEDS_invoked (parse : ResourceParser) (d : DependServiceHealthController)
    (w : World) : (checkEDS parse d w).2.invoked = w.invoked := by
  unfold checkEDS
  split <;> rfl

theorem CheckName.run_invoked (parse : ResourceParser) (d : DependServiceHealthController)
    (name : CheckName) (w : World) :
    (CheckName.run parse d name w).2.invoked = w.invoked ++ [name] := by
  cases name
  · rfl
  · rfl
  · simp [CheckName.run, checkEDS_invoked, World.record]

theorem check_run_invoked (parse : ResourceParser) (d : DependServiceHealthController) :
    ∀ (names : List CheckName) (w : World),
      ∃ k, k ≤ names.length ∧
        (check (names.map (CheckName.run parse d)) w).2.invoked = w.invoked ++ names.take k ∧
        ((check (names.map (CheckName.run parse d)) w).1 = true → k = names.length) ∧
        ((check (names.map (CheckName.run parse d)) w).1 = false → 0 < k) := by
  intro names
  induction names with
  | nil =>
    intro w
    exact ⟨0, by simp [check]⟩
  | cons name rest ih =>
    intro w
    have hrec := CheckName.run_invoked parse d name w
    rcases hrun : CheckName.run parse d name w with ⟨b, w'⟩
    rw [hrun] at hrec
    simp only at hrec
    cases b with
    | false =>
      refine ⟨1, by simp, ?_⟩
      simp [check, hrun, hrec]
    | true =>
      obtain ⟨k, hk, hinv, hpass, hfail⟩ := ih w'
      have hstep : check ((name :: rest).map (CheckName.run parse d)) w =
          check (rest.map (CheckName.run parse d)) w' := by
        simp [check, hrun]
      refine ⟨k + 1, by simpa using hk, ?_, ?_, ?_⟩
      · rw [hstep, hinv, hrec]
        simp
      · rw [hstep]
        intro hp
        simp [hpass hp]
      · intro _
        omega

theorem check_constructed (parse : ResourceParser) (d : DependServiceHealthController)
    (w : World)
    (hfunc : d.checkFunc =
      [CheckName.checkListener, CheckName.checkClusters, CheckName.checkEDS]) :
    check (d.checkFunc.map (CheckName.run parse d)) w =
      checkEDS parse d
        (((w.record .checkListener).record .checkClusters).record .checkEDS) := by
  rw [hfunc]
  simp only [List.map_cons, List.map_nil]
  have h1 : CheckName.run parse d .checkListener w = (true, w.record .checkListener) := rfl
  have h2 : CheckName.run parse d .checkClusters (w.record .checkListener) =
      (true, (w.record .checkListener).record .checkClusters) := rfl
  rw [check, h1]
  simp only
  rw [check, h2]
  simp only
  rw [check_single]
  rfl

theorem check_constructed_invoked (parse : ResourceParser)
    (d : DependServiceHealthController) (w : World)
    (hfunc : d.checkFunc =
      [CheckName.checkListener, CheckName.checkClusters, CheckName.checkEDS]) :
    (check (d.checkFunc.map (CheckName.run parse d)) w).2.invoked =
      w.invoked ++ [CheckName.checkListener, CheckName.checkClusters, CheckName.checkEDS] := by
  rw [check_constructed parse d w hfunc, checkEDS_invoked]
  simp [World.record]

theorem cycleState_constructed_invoked (parse : ResourceParser)
    (d : DependServiceHealthController)
    (hfunc : d.checkFunc =
      [CheckName.checkListener, CheckName.checkClusters, CheckName.checkEDS]) :
    ∀ (n : Nat) (w : World),
      (cycleState (check (d.checkFunc.map (CheckName.run parse d))) n w).invoked =
        w.invoked ++
          (List.replicate n
            [CheckName.checkListener, CheckName.checkClusters, CheckName.checkEDS]).flatten := by
  intro n
  induction n with
  | zero =>
    intro w
    simp [cycleState]
  | succ n ih =>
    intro w
    rw [cycleState, ih, check_constructed_invoked parse d w hfunc, List.replicate_succ,
      List.flatten_cons, List.append_assoc]

/-! ## The endpoint check -/

/-- C1: on a successful discovery response `checkEDS` returns true exactly when
every dependency name is a key of the map built from the response, that is,
the cluster name of at least one decoded record; any other successful response
whose map has the same keys gives the same result, whatever booleans the two
maps store. -/
theorem checkEDS_true_iff_names_are_keys (parse : ResourceParser)
    (d : DependServiceHealthController) (w : World) (res : DiscoveryResponse)
    (hres : w.fetch w.calls (edsRequest d) = .ok res) :
    ((checkEDS parse d w).1 = true ↔
        ∀ cn ∈ d.dependServiceClusterNames,
          (readyClusters (parse res.resources)).has cn = true) ∧
    ((checkEDS parse d w).1 = true ↔
        ∀ cn ∈ d.dependServiceClusterNames,
          ∃ cla ∈ parse res.resources, cla.clusterName = cn) ∧
    (∀ (w' : World) (res' : DiscoveryResponse),
        w'.fetch w'.calls (edsRequest d) = .ok res' →
        (∀ k, (readyClusters (parse res'.resources)).has k =
              (readyClusters (parse res.resources)).has k) →
        (checkEDS parse d w').1 = (checkEDS parse d w).1) := by
  refine ⟨?_, ?_, ?_⟩
  · rw [checkEDS_ok parse d w res hres]
    exact allPresent_iff _ _
  · rw [checkEDS_ok parse d w res hres]
    simp only [allPresent_iff, readyClusters_has]
  · intro w' res' hres' hkeys
    rw [checkEDS_ok parse d w res hres, checkEDS_ok parse d w' res' hres']
    exact allPresent_congr _ _ _ hkeys

/-- Witness of C1: two dependencies that are both present in the response, one
of them with no endpoint group at all. -/
theorem checkEDS_true_iff_names_are_keys_witness :
    (alwaysResponds ⟨[]⟩).fetch (alwaysResponds ⟨[]⟩).calls
        (edsRequest (controllerFor "node" ["svcA", "svcB"])) = .ok ⟨[]⟩ ∧
    (checkEDS (fixedRecords [⟨"svcA", []⟩, ⟨"svcB", [⟨[lbEndpointWith (some ⟨80⟩)]⟩]⟩])
        (controllerFor "node" ["svcA", "svcB"]) (alwaysResponds ⟨[]⟩)).1 = true :=
  ⟨rfl,
    ((checkEDS_true_iff_names_are_keys
        (fixedRecords [⟨"svcA", []⟩, ⟨"svcB", [⟨[lbEndpointWith (some ⟨80⟩)]⟩]⟩])
        (controllerFor "node" ["svcA", "svcB"]) (alwaysResponds ⟨[]⟩) ⟨[]⟩ rfl).1).2
      (by decide)⟩

/-- C2, evaluated on the code: with the dependency list `["svcA"]` and a
response whose only record is `svcA` with no endpoint group, `checkEDS` returns
true although the map stores false for `svcA` and no record named `svcA` is
ready. -/
theorem checkEDS_passes_with_unready_dependency :
    (checkEDS (fixedRecords [⟨"svcA", []⟩]) (controllerFor "node" ["svcA"])
        (alwaysResponds ⟨[]⟩)).1 = true ∧
    readyClusters (fixedRecords [⟨"svcA", []⟩] []) "svcA" = some false ∧
    ¬ ∃ cla ∈ fixedRecords [⟨"svcA", []⟩] [], cla.clusterName = "svcA" ∧ ready cla = true := by
  refine ⟨by decide, by decide, ?_⟩
  rintro ⟨cla, hmem, -, hready⟩
  simp only [fixedRecords, List.mem_singleton] at hmem
  subst hmem
  simp [ready] at hready

/-- C3: the readiness value of a record is true exactly when the record has a
first endpoint group, that group has a first endpoint, and that endpoint is of
the `Endpoint` variant with a non-null endpoint carrying a health-check marker.
A record with no group is not ready, and neither is a record whose first
endpoint has no marker, whatever the later endpoints and groups are. -/
theorem ready_iff_first_endpoint_marked (cla : ClusterLoadAssignment) :
    (ready cla = true ↔
        ∃ group groups first others host marker,
          cla.endpoints = group :: groups ∧ group.lbEndpoints = first :: others ∧
          first.hostIdentifier = .endpoint (some host) ∧
          host.healthCheckConfig = some marker) ∧
    (cla.endpoints = [] → ready cla = false) ∧
    (∀ group groups first others,
        cla.endpoints = group :: groups → group.lbEndpoints = first :: others →
        (∀ host, first.hostIdentifier = .endpoint (some host) →
          host.healthCheckConfig = none) →
        ready cla = false) := by
  obtain ⟨name, groups⟩ := cla
  refine ⟨?_, ?_, ?_⟩
  · cases groups with
    | nil => simp [ready]
    | cons group groups =>
      obtain ⟨eps⟩ := group
      cases eps with
      | nil => simp [ready]
      | cons first others =>
        obtain ⟨hid⟩ := first
        cases hid with
        | absent => simp [ready]
        | other n => simp [ready]
        | endpoint e =>
          cases e with
          | none => simp [ready]
          | some host => simp [ready, Option.isSome_iff_exists]
  · intro h
    simp only at h
    simp [ready, h]
  · intro group groups' first others hg hf hmark
    simp only at hg
    subst hg
    obtain ⟨eps⟩ := group
    simp only at hf
    subst hf
    obtain ⟨hid⟩ := first
    cases hid with
    | absent => simp [ready]
    | other n => simp [ready]
    | endpoint e =>
      cases e with
      | none => simp [ready]
      | some host => simp [ready, hmark host rfl]

/-- Witness of C3: the first endpoint of the first group has no marker, a later
endpoint of that group and an endpoint of a later group have one, and the
record is not ready. -/
theorem ready_iff_first_endpoint_marked_witness :
    ready ⟨"svcA", [⟨[lbEndpointWith none, lbEndpointWith (some ⟨80⟩)]⟩,
        ⟨[lbEndpointWith (some ⟨80⟩)]⟩]⟩ = false :=
  (ready_iff_first_endpoint_marked
      ⟨"svcA", [⟨[lbEndpointWith none, lbEndpointWith (some ⟨80⟩)]⟩,
        ⟨[lbEndpointWith (some ⟨80⟩)]⟩]⟩).2.2
    ⟨[lbEndpointWith none, lbEndpointWith (some ⟨80⟩)]⟩ [⟨[lbEndpointWith (some ⟨80⟩)]⟩]
    (lbEndpointWith none) [lbEndpointWith (some ⟨80⟩)] rfl rfl
    (by intro host h; cases h; rfl)

/-- C8: with an empty dependency list `checkEDS` returns true on every
successful discovery response, whatever records it decodes to. -/
theorem checkEDS_empty_dependencies (parse : ResourceParser)
    (d : DependServiceHealthController) (w : World) (res : DiscoveryResponse)
    (hnames : d.dependServiceClusterNames = [])
    (hres : w.fetch w.calls (edsRequest d) = .ok res) :
    (checkEDS parse d w).1 = true := by
  rw [checkEDS_ok parse d w res hres, hnames]
  rfl

/-- Witness of C8: an empty dependency list and a response with no record. -/
theorem checkEDS_empty_dependencies_witness :
    (controllerFor "node" []).dependServiceClusterNames = [] ∧
    (alwaysResponds ⟨[]⟩).fetch (alwaysResponds ⟨[]⟩).calls
        (edsRequest (controllerFor "node" [])) = .ok ⟨[]⟩ ∧
    (checkEDS (fixedRecords []) (controllerFor "node" []) (alwaysResponds ⟨[]⟩)).1 = true :=
  ⟨rfl, rfl,
    checkEDS_empty_dependencies (fixedRecords []) (controllerFor "node" [])
      (alwaysResponds ⟨[]⟩) ⟨[]⟩ rfl rfl⟩

/-- C9: the keys of the map built in `checkEDS` are exactly the cluster names
of the decoded records; the dependency list plays no part in it, and a name
that no record carries has no entry at all (the lookup gives no value, not
the value false). -/
theorem readyClusters_keys_are_record_names (parse : ResourceParser)
    (res : DiscoveryResponse) (k : String) :
    ((readyClusters (parse res.resources)).has k = true ↔
        k ∈ (parse res.resources).map ClusterLoadAssignment.clusterName) ∧
    (readyClusters (parse res.resources) k = none ↔
        k ∉ (parse res.resources).map ClusterLoadAssignment.clusterName) := by
  have hkey := readyClusters_has (parse res.resources) k
  have hmem : k ∈ (parse res.resources).map ClusterLoadAssignment.clusterName ↔
      ∃ cla ∈ parse res.resources, cla.clusterName = k := by
    simp [List.mem_map]
  refine ⟨hkey.trans hmem.symm, ?_⟩
  rw [hmem, ← hkey]
  unfold ReadyMap.has
  cases readyClusters (parse res.resources) k <;> simp

/-! ## The constructor -/

theorem NewDependServiceHealthController_ok (getenv : String → String)
    (dial : String → Except String ClientConn) (d : DependServiceHealthController)
    (h : NewDependServiceHealthController getenv dial = .ok d) :
    d.checkFunc = [CheckName.checkListener, CheckName.checkClusters, CheckName.checkEDS] ∧
    d.clusterID =
      (if getenv "ENVOY_NODE_ID" = "" then
        getenv "TENANT_ID" ++ "_" ++ getenv "PLUGIN_ID" ++ "_" ++ getenv "SERVICE_NAME"
      else getenv "ENVOY_NODE_ID") ∧
    d.dependServiceClusterNames = Split (getenv "DEPEND_SERVICE_CLUSTER_NAMES") ',' := by
  unfold NewDependServiceHealthController at h
  simp only at h
  split at h
  · cases h
  · cases h
    exact ⟨rfl, rfl, rfl⟩

/-- C10: the cluster identity of a constructed controller is the value of
`ENVOY_NODE_ID` when that value is not empty, and otherwise the values of
`TENANT_ID`, `PLUGIN_ID` and `SERVICE_NAME`, in that order, joined by `_`. -/
theorem NewDependServiceHealthController_clusterID (getenv : String → String)
    (dial : String → Except String ClientConn) (d : DependServiceHealthController)
    (h : NewDependServiceHealthController getenv dial = .ok d) :
    (getenv "ENVOY_NODE_ID" ≠ "" → d.clusterID = getenv "ENVOY_NODE_ID") ∧
    (getenv "ENVOY_NODE_ID" = "" →
      d.clusterID =
        "_".intercalate [getenv "TENANT_ID", getenv "PLUGIN_ID", getenv "SERVICE_NAME"]) := by
  have hid := (NewDependServiceHealthController_ok getenv dial d h).2.1
  constructor
  · intro hset
    rw [hid, if_neg hset]
  · intro hunset
    rw [hid, if_pos hunset]
    rfl

/-- Witness of C10: the identity composed from the three fields, and the
override taking precedence over them. -/
theorem NewDependServiceHealthController_clusterID_witness :
    NewDependServiceHealthController identityEnviron dialOk = .ok (controllerFor "t1_p1_web" [""]) ∧
    identityEnviron "ENVOY_NODE_ID" = "" ∧
    (controllerFor "t1_p1_web" [""]).clusterID =
      "_".intercalate [identityEnviron "TENANT_ID", identityEnviron "PLUGIN_ID",
        identityEnviron "SERVICE_NAME"] ∧
    NewDependServiceHealthController overrideEnviron dialOk = .ok (controllerFor "node-7" [""]) ∧
    overrideEnviron "ENVOY_NODE_ID" ≠ "" ∧
    (controllerFor "node-7" [""]).clusterID = overrideEnviron "ENVOY_NODE_ID" :=
  ⟨rfl, rfl,
    (NewDependServiceHealthController_clusterID identityEnviron dialOk
      (controllerFor "t1_p1_web" [""]) rfl).2 rfl,
    rfl, by decide,
    (NewDependServiceHealthController_clusterID overrideEnviron dialOk
      (controllerFor "node-7" [""]) rfl).1 (by decide)⟩

/-- C6, evaluated on the code: when no variable is set, the constructor leaves
the dependency list `[""]`, one name that is the empty string, and the endpoint
check of that controller fails on a response that has no record. -/
theorem NewDependServiceHealthController_unset_names :
    NewDependServiceHealthController emptyEnviron dialOk = .ok (controllerFor "__" [""]) ∧
    (controllerFor "__" [""]).dependServiceClusterNames = [""] ∧
    (controllerFor "__" [""]).dependServiceClusterNames ≠ [] ∧
    (checkEDS (fixedRecords []) (controllerFor "__" [""]) (alwaysResponds ⟨[]⟩)).1 = false :=
  ⟨rfl, rfl, by decide, by decide⟩

/-! ## The polling loop -/

/-- C4: the constructor builds the check list
`[checkListener, checkClusters, checkEDS]`, each entry calls the method of its
name, and `Check` is the loop over the cycle that calls these entries in list
order: every cycle of `Check` puts `checkListener`, `checkClusters`, `checkEDS`
on record, in this order, so that when `Check` returns the record has grown by
that sequence once per cycle run. For any controller, whatever its check list,
a cycle puts on record a leading part of the list: all of it when the cycle
passes, at least one entry when it fails. For any list of checks, the log of a
cycle is the positions `0 .. k-1` with result true, followed by position `k`
with result false when the cycle fails, where `k` is the length of the list
when the cycle passes; the cycle passes exactly when the log shows every check
of the list returning true, and logging changes neither the result nor the
state. -/
theorem check_invokes_up_to_first_failure (getenv : String → String)
    (dial : String → Except String ClientConn) (d : DependServiceHealthController)
    (h : NewDependServiceHealthController getenv dial = .ok d)
    (parse : ResourceParser) (w : World) (fuel : Nat)
    {σ : Type} (fs : List (σ → Bool × σ)) (s : σ) :
    d.checkFunc = [CheckName.checkListener, CheckName.checkClusters, CheckName.checkEDS] ∧
    (CheckName.run parse d .checkListener w = checkListener d (w.record .checkListener) ∧
      CheckName.run parse d .checkClusters w = checkClusters d (w.record .checkClusters) ∧
      CheckName.run parse d .checkEDS w = checkEDS parse d (w.record .checkEDS)) ∧
    Check parse d fuel w =
      Check.loop (check (d.checkFunc.map (CheckName.run parse d))) fuel 0 0 w ∧
    (check (d.checkFunc.map (CheckName.run parse d)) w).2.invoked =
      w.invoked ++ [CheckName.checkListener, CheckName.checkClusters, CheckName.checkEDS] ∧
    (∀ r, Check parse d fuel w = some r →
      r.state.invoked =
        w.invoked ++
          (List.replicate r.cycles
            [CheckName.checkListener, CheckName.checkClusters, CheckName.checkEDS]).flatten) ∧
    (∀ (c : DependServiceHealthController),
      ∃ k, k ≤ c.checkFunc.length ∧
        (check (c.checkFunc.map (CheckName.run parse c)) w).2.invoked =
          w.invoked ++ c.checkFunc.take k ∧
        ((check (c.checkFunc.map (CheckName.run parse c)) w).1 = true →
          k = c.checkFunc.length) ∧
        ((check (c.checkFunc.map (CheckName.run parse c)) w).1 = false → 0 < k)) ∧
    (∃ k, (check (loggedFrom 0 fs) (s, [])).2.2 =
            (List.range k).map (fun j => (j, true)) ++
              (if (check fs s).1 = true then [] else [(k, false)]) ∧
          (if (check fs s).1 = true then k = fs.length else k < fs.length)) ∧
    ((check fs s).1 = true ↔
        (check (loggedFrom 0 fs) (s, [])).2.2 =
          (List.range fs.length).map (fun j => (j, true))) ∧
    (check (loggedFrom 0 fs) (s, [])).1 = (check fs s).1 ∧
    (check (loggedFrom 0 fs) (s, [])).2.1 = (check fs s).2 := by
  have hfunc := (NewDependServiceHealthController_ok getenv dial d h).1
  obtain ⟨k, hlog, hk, hres, hst⟩ := check_loggedFrom fs 0 s []
  simp only [List.nil_append, Nat.zero_add, ← List.range_eq_range'] at hlog
  refine ⟨hfunc, ⟨rfl, rfl, rfl⟩, rfl, check_constructed_invoked parse d w hfunc, ?_,
    fun c => check_run_invoked parse c c.checkFunc w, ⟨k, hlog, hk⟩, ?_, hres, hst⟩
  · intro r hr
    obtain ⟨n, -, hc, -, -, -, hstate⟩ :=
      Check.loop_some (check (d.checkFunc.map (CheckName.run parse d))) fuel w 0 0 r hr
    have hcycles : r.cycles = n + 1 := by omega
    rw [hstate, hcycles]
    exact cycleState_constructed_invoked parse d hfunc (n + 1) w
  · rw [hlog]
    by_cases hpass : (check fs s).1 = true
    · simp only [hpass, if_true] at hk ⊢
      simp [hk]
    · have hfail : (check fs s).1 = false := by simpa using hpass
      rw [hfail] at hk ⊢
      simp only [Bool.false_eq_true, if_false, false_iff] at hk ⊢
      intro heq
      have hmem : (k, false) ∈ (List.range fs.length).map (fun j => (j, true)) := by
        rw [← heq]
        simp
      simp at hmem

/-- Witness of C4: the controller built from an empty environment, run against
a discovery service whose first call fails and whose second call reports a
cluster with the empty name: `Check` returns after two cycles, and the record
holds the three checks in the order of the list, twice. Next to it, a cycle of
three checks on a counter of which the second fails: its log stops after the
second check. -/
theorem check_invokes_up_to_first_failure_witness :
    NewDependServiceHealthController emptyEnviron dialOk = .ok (controllerFor "__" [""]) ∧
    Check (fixedRecords [⟨"", []⟩]) (controllerFor "__" [""]) 4 (failsThenResponds 1 ⟨[]⟩) =
      some { cycles := 2, ticks := 1,
             state := { fetch := (failsThenResponds 1 ⟨[]⟩).fetch, calls := 2,
                        invoked := [CheckName.checkListener, CheckName.checkClusters,
                          CheckName.checkEDS, CheckName.checkListener,
                          CheckName.checkClusters, CheckName.checkEDS] } } ∧
    ({ fetch := (failsThenResponds 1 ⟨[]⟩).fetch, calls := 2,
       invoked := [CheckName.checkListener, CheckName.checkClusters,
         CheckName.checkEDS, CheckName.checkListener,
         CheckName.checkClusters, CheckName.checkEDS] } : World).invoked =
      (failsThenResponds 1 ⟨[]⟩).invoked ++
        (List.replicate 2
          [CheckName.checkListener, CheckName.checkClusters, CheckName.checkEDS]).flatten ∧
    (check (loggedFrom 0
        [fun n : Nat => (true, n + 1), fun n => (false, n + 1), fun n => (true, n + 1)])
      (0, [])).2.2 = [(0, true), (1, false)] :=
  ⟨rfl, rfl,
    (check_invokes_up_to_first_failure emptyEnviron dialOk (controllerFor "__" [""]) rfl
      (fixedRecords [⟨"", []⟩]) (failsThenResponds 1 ⟨[]⟩) 4
      [fun n : Nat => (true, n + 1), fun n => (false, n + 1), fun n => (true, n + 1)]
      0).2.2.2.2.1 _ rfl,
    by decide⟩

/-- C5: the loop of `Check` runs its first cycle at once; when cycle `n` is the
first one that passes, the loop returns after it, having run `n + 1` cycles and
waited for `n` ticks, as soon as the fuel covers `n + 1` cycles, and it has not
returned with less fuel. Whenever the loop returns, the last cycle it ran
passed and every earlier one failed; when no cycle passes the loop returns for
no amount of fuel. -/
theorem Check_returns_after_first_passing_cycle {σ : Type} (cycle : σ → Bool × σ) (s : σ) :
    (∀ n, (∀ i < n, cycleOutcome cycle s i = false) → cycleOutcome cycle s n = true →
        (∀ fuel, n < fuel →
          Check.loop cycle fuel 0 0 s =
            some { cycles := n + 1, ticks := n, state := cycleState cycle (n + 1) s }) ∧
        (∀ fuel, fuel ≤ n → Check.loop cycle fuel 0 0 s = none)) ∧
    (∀ fuel r, Check.loop cycle fuel 0 0 s = some r →
        r.cycles = r.ticks + 1 ∧ cycleOutcome cycle s r.ticks = true ∧
        ∀ i < r.ticks, cycleOutcome cycle s i = false) ∧
    ((∀ i, cycleOutcome cycle s i = false) → ∀ fuel, Check.loop cycle fuel 0 0 s = none) := by
  refine ⟨?_, ?_, ?_⟩
  · intro n hbefore hn
    constructor
    · intro fuel hfuel
      have := Check.loop_first_pass cycle n s 0 0 fuel hbefore hn hfuel
      simpa using this
    · intro fuel hfuel
      cases hloop : Check.loop cycle fuel 0 0 s with
      | none => rfl
      | some r =>
        obtain ⟨m, hm, -, -, hout, -, -⟩ := Check.loop_some cycle fuel s 0 0 r hloop
        have := hbefore m (by omega)
        rw [this] at hout
        cases hout
  · intro fuel r hloop
    obtain ⟨m, -, hc, ht, hout, hbefore, -⟩ := Check.loop_some cycle fuel s 0 0 r hloop
    have hticks : r.ticks = m := by omega
    rw [hticks]
    exact ⟨by omega, hout, hbefore⟩
  · intro hnever fuel
    cases hloop : Check.loop cycle fuel 0 0 s with
    | none => rfl
    | some r =>
      obtain ⟨m, -, -, -, hout, -, -⟩ := Check.loop_some cycle fuel s 0 0 r hloop
      rw [hnever m] at hout
      cases hout

/-- Witness of C5: a controller without dependencies and a discovery service
whose first two calls fail: `Check` returns after three cycles and two
ticks. -/
theorem Check_returns_after_first_passing_cycle_witness :
    (∀ i < 2, cycleOutcome
        (check ((controllerFor "node" []).checkFunc.map
          (CheckName.run (fixedRecords []) (controllerFor "node" []))))
        (failsThenResponds 2 ⟨[]⟩) i = false) ∧
    cycleOutcome
        (check ((controllerFor "node" []).checkFunc.map
          (CheckName.run (fixedRecords []) (controllerFor "node" []))))
        (failsThenResponds 2 ⟨[]⟩) 2 = true ∧
    Check (fixedRecords []) (controllerFor "node" []) 5 (failsThenResponds 2 ⟨[]⟩) =
      some { cycles := 3, ticks := 2,
             state := cycleState
               (check ((controllerFor "node" []).checkFunc.map
                 (CheckName.run (fixedRecords []) (controllerFor "node" []))))
               3 (failsThenResponds 2 ⟨[]⟩) } :=
  ⟨by decide, by decide,
    ((Check_returns_after_first_passing_cycle
        (check ((controllerFor "node" []).checkFunc.map
          (CheckName.run (fixedRecords []) (controllerFor "node" []))))
        (failsThenResponds 2 ⟨[]⟩)).1 2 (by decide) (by decide)).1 5 (by decide)⟩

end Healthy
